/-
Verification development for the Product Query Normalizer pipeline
(src/Product_Query_Normalizer/: schemas.py, parser.py, ambiguity_detector.py,
validator.py, normalizer.py).

Modelling conventions:
* Python floats are modelled as exact rationals (ℚ); decimal literals such as
  0.7 are exact in ℚ, matching the idealized arithmetic the code relies on.
* Python strings are modelled as `List Char`; `str.lower` as `Char.toLower`
  (the keyword tables are ASCII), `str.strip` as trimming whitespace on both
  ends, and the `in` substring test as `containsSub`.
* The regex price-matching stage of `QueryParser.extract_price_range`
  (re.findall over PRICE_PATTERNS, lines 131-136 of parser.py) is abstracted:
  `extract_price_range` takes the list of already-cleaned numeric matches as
  its input.  Everything from line 138 on (empty check, dedup via set(),
  ascending sort, single/multiple handling) is modelled exactly.  All values
  the regexes can produce are non-negative (digit strings), which appears as
  a non-negativity hypothesis where relevant.
* `float(...)` applied to a clarification response is modelled by
  `parseDecimal`, covering optional sign, integer and fractional digits
  (Python's exotic inputs such as exponents, inf and nan are outside the
  model; no claim depends on them).
* Pydantic construction of `PriceRange` (Field ge=0 on both bounds plus the
  max_price >= min_price validator) is `PriceRange.make`, returning `none`
  where pydantic raises `ValidationError`.  `ValidationError` is a subclass
  of `ValueError`, so the `except (ValueError, TypeError)` in
  `InteractiveClarifier._apply_response` swallows it.
-/
import Mathlib

namespace PQN

/-! ### Data model (schemas.py) -/

/-- `ProductTypeEnum` of schemas.py, members in declaration order. -/
inductive ProductTypeEnum where
  | headphones | earbuds | speakers | microphone | camera
  | laptop | phone | tablet | watch | unknown
deriving DecidableEq

/-- `UsageContextEnum` of schemas.py, members in declaration order. -/
inductive UsageContextEnum where
  | gym | office | home | outdoor | travel | gaming | professional | casual | unknown
deriving DecidableEq

/-- The `.value` string of a `ProductTypeEnum` member. -/
def ProductTypeEnum.value : ProductTypeEnum → String
  | .headphones => "headphones"
  | .earbuds => "earbuds"
  | .speakers => "speakers"
  | .microphone => "microphone"
  | .camera => "camera"
  | .laptop => "laptop"
  | .phone => "phone"
  | .tablet => "tablet"
  | .watch => "watch"
  | .unknown => "unknown"

/-- The `.value` string of a `UsageContextEnum` member. -/
def UsageContextEnum.value : UsageContextEnum → String
  | .gym => "gym"
  | .office => "office"
  | .home => "home"
  | .outdoor => "outdoor"
  | .travel => "travel"
  | .gaming => "gaming"
  | .professional => "professional"
  | .casual => "casual"
  | .unknown => "unknown"

/-- All `ProductTypeEnum` members, in declaration order. -/
def allProductTypes : List ProductTypeEnum :=
  [.headphones, .earbuds, .speakers, .microphone, .camera,
   .laptop, .phone, .tablet, .watch, .unknown]

/-- All `UsageContextEnum` members, in declaration order. -/
def allUsageContexts : List UsageContextEnum :=
  [.gym, .office, .home, .outdoor, .travel, .gaming, .professional, .casual, .unknown]

/-- `ProductTypeEnum(response)`: lookup by value, `none` where Python raises
`ValueError`. -/
def parseProductTypeValue (s : String) : Option ProductTypeEnum :=
  allProductTypes.find? (fun p => p.value == s)

/-- `UsageContextEnum(response)` by value (used via the
`response in [c.value for c in UsageContextEnum]` membership test). -/
def parseUsageContextValue (s : String) : Option UsageContextEnum :=
  allUsageContexts.find? (fun c => c.value == s)

/-- `PriceRange` of schemas.py: the raw record (two numeric bounds). -/
structure PriceRange where
  min_price : ℚ
  max_price : ℚ
deriving DecidableEq

/-- The construction-time invariant pydantic enforces on `PriceRange`:
both bounds non-negative (Field ge=0) and `max_price >= min_price`
(the `validate_max_price` field validator). -/
def PriceRange.Valid (pr : PriceRange) : Prop :=
  0 ≤ pr.min_price ∧ 0 ≤ pr.max_price ∧ pr.min_price ≤ pr.max_price

instance (pr : PriceRange) : Decidable pr.Valid := by
  unfold PriceRange.Valid; infer_instance

/-- Pydantic construction of `PriceRange(min_price=a, max_price=b)`:
`none` models a raised `ValidationError`. -/
def PriceRange.make (a b : ℚ) : Option PriceRange :=
  if a < 0 then none
  else if b < 0 then none
  else if b < a then none
  else some ⟨a, b⟩

/-- `ParsedQuery` of schemas.py.  Feature strings and the original query are
`List Char`; `missing_fields` holds the field-name strings the parser uses. -/
structure ParsedQuery where
  product_type : ProductTypeEnum
  price_range : Option PriceRange
  usage_context : List UsageContextEnum
  feature_preferences : List (List Char)
  original_query : List Char
  confidence_score : ℚ
  is_complete : Bool
  missing_fields : List String
deriving DecidableEq

/-- `ClarificationRequest` of schemas.py. -/
structure ClarificationRequest where
  field_name : String
  field_label : String
  current_value : Option String
  options : Option (List String)
  question : String
deriving DecidableEq

/-- `NormalizedResult` of schemas.py. -/
structure NormalizedResult where
  parsed_query : ParsedQuery
  clarifications_made : List ClarificationRequest
  is_valid : Bool
  validation_errors : List String
deriving DecidableEq

/-! ### Text utilities -/

/-- `text.startswith(kw)` on character lists: first argument is the text,
second the candidate. -/
def listStartsWith : List Char → List Char → Bool
  | _, [] => true
  | [], _ :: _ => false
  | c :: cs, k :: ks => c == k && listStartsWith cs ks

/-- Python's substring test `kw in text` (first argument the text, second the
needle). -/
def containsSub : List Char → List Char → Bool
  | [], kw => kw.isEmpty
  | c :: cs, kw => listStartsWith (c :: cs) kw || containsSub cs kw

/-- `str.strip()`: drop whitespace from both ends. -/
def stripChars (t : List Char) : List Char :=
  ((t.dropWhile Char.isWhitespace).reverse.dropWhile Char.isWhitespace).reverse

/-- `QueryParser.normalize_text`: `text.lower().strip()`. -/
def normalize_text (t : List Char) : List Char :=
  stripChars (t.map Char.toLower)

/-- `response.split(",")`: splitting the empty string yields one empty piece,
as in Python. -/
def splitComma : List Char → List (List Char)
  | [] => [[]]
  | c :: rest =>
    if c = ',' then [] :: splitComma rest
    else
      match splitComma rest with
      | [] => [[c]]
      | h :: t => (c :: h) :: t

/-- Numeric value of a digit string (most significant first). -/
def digitsToNat (s : List Char) : Nat :=
  s.foldl (fun n c => 10 * n + (c.toNat - 48)) 0

/-- Unsigned decimal literal: digits, optionally a dot and more digits;
at least one digit overall. -/
def parseUnsignedDecimal (s : List Char) : Option ℚ :=
  let intPart := s.takeWhile Char.isDigit
  let rest := s.dropWhile Char.isDigit
  match rest with
  | [] => if intPart.isEmpty then none else some (digitsToNat intPart)
  | '.' :: fracTail =>
      let fracPart := fracTail.takeWhile Char.isDigit
      if (fracTail.dropWhile Char.isDigit).isEmpty = false then none
      else if intPart.isEmpty && fracPart.isEmpty then none
      else some ((digitsToNat intPart : ℚ) + (digitsToNat fracPart : ℚ) / (10 : ℚ) ^ fracPart.length)
  | _ => none

/-- Model of Python `float(s)` on plain signed decimal literals (surrounding
whitespace stripped, optional sign); `none` models a raised `ValueError`. -/
def parseDecimal (s0 : List Char) : Option ℚ :=
  match stripChars s0 with
  | '-' :: rest => (parseUnsignedDecimal rest).map (fun v => -v)
  | '+' :: rest => parseUnsignedDecimal rest
  | s => parseUnsignedDecimal s

/-! ### Parser (parser.py) -/

/-- `QueryParser.PRODUCT_KEYWORDS`, in declared (dict-insertion) order. -/
def PRODUCT_KEYWORDS : List (ProductTypeEnum × List (List Char)) :=
  [ (.headphones, ["headphones".toList, "headphone".toList, "over-ear".toList,
      "over ear".toList, "on-ear".toList]),
    (.earbuds, ["earbuds".toList, "earbud".toList, "buds".toList, "tws".toList,
      "true wireless".toList, "airpods".toList]),
    (.speakers, ["speaker".toList, "speakers".toList, "bluetooth speaker".toList,
      "portable speaker".toList]),
    (.microphone, ["microphone".toList, "mic".toList, "studio mic".toList,
      "condenser".toList]),
    (.camera, ["camera".toList, "dslr".toList, "mirrorless".toList,
      "action camera".toList, "gopro".toList]),
    (.laptop, ["laptop".toList, "notebook".toList, "macbook".toList,
      "gaming laptop".toList]),
    (.phone, ["phone".toList, "smartphone".toList, "mobile".toList,
      "iphone".toList, "android".toList]),
    (.tablet, ["tablet".toList, "ipad".toList, "galaxy tab".toList]),
    (.watch, ["watch".toList, "smartwatch".toList, "fitness watch".toList,
      "wearable".toList]) ]

/-- `QueryParser.CONTEXT_KEYWORDS`, in declared order. -/
def CONTEXT_KEYWORDS : List (UsageContextEnum × List (List Char)) :=
  [ (.gym, ["gym".toList, "workout".toList, "exercise".toList, "fitness".toList,
      "running".toList, "jogging".toList, "sports".toList]),
    (.office, ["office".toList, "work".toList, "meeting".toList, "conference".toList,
      "calls".toList, "professional".toList]),
    (.home, ["home".toList, "house".toList, "living room".toList, "bedroom".toList,
      "domestic".toList]),
    (.outdoor, ["outdoor".toList, "outdoors".toList, "outside".toList,
      "hiking".toList, "camping".toList, "trail".toList]),
    (.travel, ["travel".toList, "trip".toList, "journey".toList, "commute".toList,
      "plane".toList, "flight".toList]),
    (.gaming, ["gaming".toList, "game".toList, "esports".toList,
      "competitive".toList, "fps".toList, "moba".toList]),
    (.professional, ["professional".toList, "studio".toList, "recording".toList,
      "streaming".toList, "podcast".toList, "content".toList]) ]

/-- `QueryParser.FEATURE_KEYWORDS`, in declared order. -/
def FEATURE_KEYWORDS : List (List Char) :=
  ["waterproof".toList, "water resistant".toList, "dust proof".toList,
   "ip67".toList, "ip68".toList,
   "noise-cancelling".toList, "noise cancelling".toList, "anc".toList,
   "active noise".toList,
   "wireless".toList, "bluetooth".toList, "wired".toList, "usb-c".toList,
   "usb c".toList,
   "long battery".toList, "battery life".toList, "fast charging".toList,
   "lightweight".toList, "portable".toList, "compact".toList,
   "comfortable".toList, "ergonomic".toList, "fit".toList,
   "premium".toList, "wireless charging".toList, "touch control".toList,
   "3d audio".toList, "surround".toList, "bass boost".toList, "eq".toList]

/-- Inner loop of `extract_product_type`: scan one keyword list, returning at
the first keyword contained in the normalized text. -/
def findKeywordMatch (n : List Char) (product : ProductTypeEnum) :
    List (List Char) → Option (ProductTypeEnum × ℚ)
  | [] => none
  | kw :: rest =>
    if containsSub n kw then
      if kw == n || listStartsWith n kw then some (product, 0.95)
      else some (product, 0.85)
    else findKeywordMatch n product rest

/-- Outer loop of `extract_product_type` over the keyword table. -/
def findProductMatch (n : List Char) :
    List (ProductTypeEnum × List (List Char)) → Option (ProductTypeEnum × ℚ)
  | [] => none
  | (product, kws) :: rest =>
    match findKeywordMatch n product kws with
    | some r => some r
    | none => findProductMatch n rest

/-- `QueryParser.extract_product_type`. -/
def extract_product_type (query : List Char) : ProductTypeEnum × ℚ :=
  match findProductMatch (normalize_text query) PRODUCT_KEYWORDS with
  | some r => r
  | none => (ProductTypeEnum.unknown, 0.3)

/-- `QueryParser.extract_price_range`, lines 138-151 of parser.py, taking the
cleaned numeric regex matches as input (see the header comment).  Raw
construction `⟨_, _⟩` mirrors the direct `PriceRange(...)` calls, which never
raise on the non-negative values the regexes produce. -/
def extract_price_range (prices : List ℚ) : Option PriceRange × ℚ :=
  if prices.isEmpty then (none, 0)
  else
    match List.insertionSort (· ≤ ·) prices.dedup with
    | [] => (none, 0)
    | [v] => (some ⟨v * 0.7, v⟩, 0.75)
    | v :: rest => (some ⟨v, rest.getLastD v⟩, 0.85)

/-- `QueryParser.extract_usage_context`: one hit per context category (the
inner `break`), constant 0.85 confidences averaged. -/
def extract_usage_context (query : List Char) : List UsageContextEnum × ℚ :=
  let n := normalize_text query
  let contexts := CONTEXT_KEYWORDS.filterMap
    (fun ck => if ck.2.any (fun kw => containsSub n kw) then some ck.1 else none)
  if contexts.isEmpty then ([], 0)
  else
    let confs := contexts.map (fun _ => (0.85 : ℚ))
    let avg := if confs.isEmpty then (0 : ℚ) else confs.sum / (confs.length : ℚ)
    (contexts.dedup, avg)

/-- `QueryParser.extract_features`. -/
def extract_features (query : List Char) : List (List Char) × ℚ :=
  let n := normalize_text query
  let features := FEATURE_KEYWORDS.filter (fun f => containsSub n f)
  (features, if features.isEmpty then 0 else 0.8)

/-- `QueryParser.parse`, with the price regex matches passed in as `prices`. -/
def parse (prices : List ℚ) (query : List Char) : ParsedQuery :=
  let pt := extract_product_type query
  let pr := extract_price_range prices
  let ct := extract_usage_context query
  let ft := extract_features query
  let confidences := [pt.2] ++ (if (pr.1).isSome then [pr.2] else [])
      ++ (if ct.1.isEmpty then [] else [ct.2])
      ++ (if ft.1.isEmpty then [] else [ft.2])
  let avg := if confidences.isEmpty then (0.5 : ℚ)
             else confidences.sum / (confidences.length : ℚ)
  let missing := (if pt.1 = ProductTypeEnum.unknown then ["product_type"] else [])
      ++ (if (pr.1).isNone then ["price_range"] else [])
      ++ (if ct.1.isEmpty then ["usage_context"] else [])
      ++ (if ft.1.isEmpty then ["feature_preferences"] else [])
  { product_type := pt.1, price_range := pr.1, usage_context := ct.1,
    feature_preferences := ft.1, original_query := query, confidence_score := avg,
    is_complete := missing.isEmpty, missing_fields := missing }

/-! ### Ambiguity detector (ambiguity_detector.py) -/

/-- `AmbiguityDetector.USAGE_SUGGESTIONS`. -/
def USAGE_SUGGESTIONS : List UsageContextEnum :=
  [.gym, .office, .home, .outdoor, .travel, .gaming, .professional]

/-- `AmbiguityDetector.FEATURE_SUGGESTIONS` as a partial map (dict `.get`
with the generic fallback applied at the use site). -/
def FEATURE_SUGGESTIONS : ProductTypeEnum → Option (List String)
  | .headphones => some ["noise-cancelling", "waterproof", "long battery life",
      "lightweight", "wireless", "premium sound"]
  | .earbuds => some ["waterproof", "noise-cancelling", "wireless charging",
      "long battery", "transparent mode", "active noise"]
  | .speakers => some ["portable", "waterproof", "long battery", "bass boost",
      "wireless", "360 audio"]
  | .laptop => some ["gaming", "lightweight", "long battery", "fast processor",
      "high resolution display", "touchscreen"]
  | _ => none

/-- Rule 1 request: unknown product type. -/
def productTypeRequest : ClarificationRequest :=
  { field_name := "product_type", field_label := "Product Type",
    current_value := none,
    options := some ((allProductTypes.filter
      (fun p => p ≠ ProductTypeEnum.unknown)).map ProductTypeEnum.value),
    question := "What type of product are you looking for?" }

/-- Rule 2 request: missing price range. -/
def priceRangeRequest : ClarificationRequest :=
  { field_name := "price_range", field_label := "Budget",
    current_value := none, options := none,
    question := "What is your budget range (in rupees)?" }

/-- Rule 3 request: missing usage context. -/
def usageContextRequest : ClarificationRequest :=
  { field_name := "usage_context", field_label := "Usage Context",
    current_value := none,
    options := some (USAGE_SUGGESTIONS.map UsageContextEnum.value),
    question := "Where will you primarily use this product?" }

/-- Rule 4 request: missing features (per-product suggestions with the
generic three-item fallback). -/
def featureRequest (pt : ProductTypeEnum) : ClarificationRequest :=
  { field_name := "feature_preferences", field_label := "Features",
    current_value := none,
    options := some ((FEATURE_SUGGESTIONS pt).getD
      ["high quality", "affordable", "durable"]),
    question := "What features are important to you?" }

/-- Rule 5 request: low confidence.  Python's `:.1%` float formatting is
rendered as the exact rational. -/
def generalRequest (conf : ℚ) : ClarificationRequest :=
  { field_name := "general", field_label := "Query Clarity",
    current_value := some ("Confidence: " ++ toString conf),
    options := none,
    question := "Could you provide more details? (Current parse confidence: "
      ++ toString conf ++ ")" }

/-- `AmbiguityDetector.detect_ambiguities`: the five independent rules, in
source order. -/
def detect_ambiguities (q : ParsedQuery) : List ClarificationRequest :=
  (if q.product_type = ProductTypeEnum.unknown then [productTypeRequest] else [])
  ++ (if q.price_range = none then [priceRangeRequest] else [])
  ++ (if q.usage_context = [] then [usageContextRequest] else [])
  ++ (if q.feature_preferences = [] then [featureRequest q.product_type] else [])
  ++ (if q.confidence_score < 0.65 then [generalRequest q.confidence_score] else [])

/-- `AmbiguityDetector.is_ambiguous`: `len(detect_ambiguities(q)) > 0`. -/
def is_ambiguous (q : ParsedQuery) : Bool :=
  decide (0 < (detect_ambiguities q).length)

/-! ### Validator (validator.py) -/

/-- The wide-ratio message of `validate_price_range` (the `:.1f` float
formatting is rendered as the exact rational). -/
def wideRatioMessage (r : ℚ) : String :=
  "Price range too wide (ratio " ++ toString r
    ++ "x). Consider narrowing your budget for better recommendations."

/-- `QueryValidator.validate_price_range`.  Note the wide-ratio message is
appended to `errors` and the function returns `len(errors) == 0`, so a wide
ratio makes the first component `false`. -/
def validate_price_range : Option PriceRange → Bool × List String
  | none => (true, [])
  | some pr =>
    if pr.min_price < 0 ∨ pr.max_price < 0 then
      (false, ["Price values cannot be negative"])
    else if pr.max_price < pr.min_price then
      (false, ["Maximum price must be >= minimum price"])
    else
      let errors :=
        if 0 < pr.max_price ∧ 0 < pr.min_price ∧ 10 < pr.max_price / pr.min_price
        then [wideRatioMessage (pr.max_price / pr.min_price)]
        else []
      (errors.isEmpty, errors)

/-- `QueryValidator.MINIMUM_BUDGET.get(p, 500)`. -/
def MINIMUM_BUDGET : ProductTypeEnum → ℚ
  | .headphones => 500
  | .earbuds => 1000
  | .speakers => 1500
  | .microphone => 2000
  | .camera => 15000
  | .laptop => 30000
  | .phone => 10000
  | .tablet => 10000
  | .watch => 5000
  | .unknown => 500

/-- `QueryValidator.MAXIMUM_BUDGET.get(p, 500000)`. -/
def MAXIMUM_BUDGET : ProductTypeEnum → ℚ
  | .headphones => 50000
  | .earbuds => 30000
  | .speakers => 100000
  | .microphone => 50000
  | .camera => 500000
  | .laptop => 500000
  | .phone => 150000
  | .tablet => 100000
  | .watch => 50000
  | .unknown => 500000

/-- `QueryValidator.validate_against_product_type`: always ok, warnings
only. -/
def validate_against_product_type (product_type : ProductTypeEnum)
    (price_range : Option PriceRange) : Bool × List String :=
  match price_range with
  | none => (true, [])
  | some pr =>
    if product_type = ProductTypeEnum.unknown then (true, [])
    else
      let w1 := if pr.max_price < MINIMUM_BUDGET product_type then
          ["Budget may be too low for " ++ product_type.value
            ++ ". Minimum recommended: " ++ toString (MINIMUM_BUDGET product_type)]
        else []
      let w2 := if MAXIMUM_BUDGET product_type < pr.min_price then
          ["Budget seems very high for " ++ product_type.value
            ++ ". Maximum typical: " ++ toString (MAXIMUM_BUDGET product_type)]
        else []
      (true, w1 ++ w2)

/-- `QueryValidator.validate_query`: price-range failures are fatal;
category-budget warnings are computed and dropped. -/
def validate_query (q : ParsedQuery) : NormalizedResult :=
  let pv := validate_price_range q.price_range
  let errors := if pv.1 then [] else pv.2
  let _warnings := validate_against_product_type q.product_type q.price_range
  { parsed_query := q, clarifications_made := [],
    is_valid := pv.1, validation_errors := errors }

/-! ### Interactive clarifier (validator.py) -/

/-- `InteractiveClarifier._apply_response`.  Invalid enum values, unparsable
numbers and pydantic construction failures (which raise `ValidationError`, a
`ValueError`) are swallowed, keeping the query unchanged. -/
def apply_response (q : ParsedQuery) (ambiguity : ClarificationRequest)
    (response : String) : ParsedQuery :=
  if ambiguity.field_name = "product_type" then
    match parseProductTypeValue response with
    | some pt => { q with product_type := pt }
    | none => q
  else if ambiguity.field_name = "price_range" then
    match parseDecimal (response.toList.filter (fun c => c ≠ ',')) with
    | some v =>
      match PriceRange.make (v * 0.7) v with
      | some pr => { q with price_range := some pr }
      | none => q
    | none => q
  else if ambiguity.field_name = "usage_context" then
    match parseUsageContextValue response with
    | some c => { q with usage_context := [c] }
    | none => q
  else if ambiguity.field_name = "feature_preferences" then
    { q with feature_preferences := (splitComma response.toList).map stripChars }
  else q

/-- One iteration of the response-application loop of
`InteractiveClarifier.clarify_query`: apply a response if the user supplied
one for this ambiguity, recording the ambiguity as answered. -/
def clarifyStep (rs : List (String × String))
    (acc : ParsedQuery × List ClarificationRequest)
    (amb : ClarificationRequest) : ParsedQuery × List ClarificationRequest :=
  match List.lookup amb.field_name rs with
  | some response => (apply_response acc.1 amb response, acc.2 ++ [amb])
  | none => acc

/-- `InteractiveClarifier.clarify_query`: the user-response dict is an
association list. -/
def clarify_query (q : ParsedQuery) (rs : List (String × String)) :
    NormalizedResult :=
  let r := (detect_ambiguities q).foldl (clarifyStep rs) (q, [])
  let v := validate_query r.1
  { v with clarifications_made := r.2 }

/-! ### Normalizer (normalizer.py) -/

/-- `ProductQueryNormalizer.normalize`: clarify when responses were supplied
(non-empty dict, Python truthiness) or the parse is ambiguous, else validate
directly. -/
def normalize (prices : List ℚ) (query : List Char)
    (user_responses : List (String × String)) : NormalizedResult :=
  let parsed := parse prices query
  if !user_responses.isEmpty || is_ambiguous parsed then
    clarify_query parsed user_responses
  else validate_query parsed

/-! ### Spec-phrased restatement for the product-type contract

`productTypeSpec` follows the spec's words ("the product category of the
first keyword, in the keyword table's declared order, that occurs as a
substring of the lowercased, stripped text; confidence 0.95 if that keyword
equals the normalized text or is a prefix of it and 0.85 otherwise; category
unknown with confidence 0.3 if no keyword occurs"), to be compared with the
source-translated `extract_product_type`. -/
def productTypeSpec (query : List Char) : ProductTypeEnum × ℚ :=
  let n := normalize_text query
  match (PRODUCT_KEYWORDS.flatMap (fun pk => pk.2.map (fun kw => (pk.1, kw)))).find?
      (fun pk => containsSub n pk.2) with
  | some pk => (pk.1, if pk.2 == n || listStartsWith n pk.2 then 0.95 else 0.85)
  | none => (ProductTypeEnum.unknown, 0.3)

/-! ### Concrete values used by counterexamples and witnesses -/

/-- A pydantic-constructible `ParsedQuery` with a missing price range
(e.g. as parsed from a query with no price mention). -/
def c2Query : ParsedQuery :=
  { product_type := .laptop, price_range := none, usage_context := [],
    feature_preferences := [], original_query := "gaming laptop".toList,
    confidence_score := 0.85, is_complete := false,
    missing_fields := ["price_range", "usage_context", "feature_preferences"] }

/-- A fully specified query text: product, price, context and feature are
all detected, so the parse is unambiguous. -/
def c8Text : List Char :=
  "waterproof earbuds under 5000 for outdoor activities".toList

/-- A pydantic-constructible `ParsedQuery` whose `is_complete` flag and
`missing_fields` list disagree: the `ParsedQuery` model has no validator
linking the two fields, so pydantic accepts this value. -/
def c9Query : ParsedQuery :=
  { product_type := .headphones, price_range := none, usage_context := [],
    feature_preferences := [], original_query := [],
    confidence_score := 0.9, is_complete := true,
    missing_fields := ["price_range"] }

/-! ### Helper lemmas -/

/- Batteries marks the arithmetic on `Rat` `@[irreducible]`; restore
definitional transparency within this development so that concrete runs of
the pipeline can be evaluated by `decide`. -/
attribute [local semireducible] Rat.mul Rat.add Rat.sub Rat.inv Rat.ofScientific

/-- Characterization of pydantic `PriceRange` construction. -/
theorem PriceRange.make_eq_some {a b : ℚ} {pr : PriceRange} :
    PriceRange.make a b = some pr ↔ 0 ≤ a ∧ 0 ≤ b ∧ a ≤ b ∧ pr = ⟨a, b⟩ := by
  unfold PriceRange.make
  split_ifs with h1 h2 h3
  · exact ⟨fun hx => absurd hx (by simp), fun hx => absurd h1 (not_lt.2 hx.1)⟩
  · exact ⟨fun hx => absurd hx (by simp), fun hx => absurd h2 (not_lt.2 hx.2.1)⟩
  · exact ⟨fun hx => absurd hx (by simp), fun hx => absurd h3 (not_lt.2 hx.2.2.1)⟩
  · push_neg at h1 h2 h3
    simp only [Option.some.injEq]
    exact ⟨fun hx => ⟨h1, h2, h3, hx.symm⟩, fun hx => hx.2.2.2.symm⟩

/-- A successfully constructed `PriceRange` satisfies the invariant. -/
theorem PriceRange.make_valid {a b : ℚ} {pr : PriceRange}
    (h : PriceRange.make a b = some pr) : pr.Valid := by
  obtain ⟨h1, h2, h3, rfl⟩ := PriceRange.make_eq_some.mp h
  exact ⟨h1, h2, h3⟩

/-- `_apply_response` never touches the price range unless the ambiguity is
the price one. -/
theorem apply_response_price_of_ne (q : ParsedQuery) (a : ClarificationRequest)
    (r : String) (h : a.field_name ≠ "price_range") :
    (apply_response q a r).price_range = q.price_range := by
  unfold apply_response
  split_ifs <;>
    first
      | rfl
      | (split <;> first | rfl | (split <;> rfl))
      | simp_all

/-- `_apply_response` never touches the product type unless the ambiguity is
the product-type one. -/
theorem apply_response_product_of_ne (q : ParsedQuery) (a : ClarificationRequest)
    (r : String) (h : a.field_name ≠ "product_type") :
    (apply_response q a r).product_type = q.product_type := by
  unfold apply_response
  split_ifs <;>
    first
      | rfl
      | (split <;> first | rfl | (split <;> rfl))
      | simp_all

/-- `_apply_response` never touches the usage context unless the ambiguity is
the usage-context one. -/
theorem apply_response_usage_of_ne (q : ParsedQuery) (a : ClarificationRequest)
    (r : String) (h : a.field_name ≠ "usage_context") :
    (apply_response q a r).usage_context = q.usage_context := by
  unfold apply_response
  split_ifs <;>
    first
      | rfl
      | (split <;> first | rfl | (split <;> rfl))
      | simp_all

/-- `_apply_response` never touches the feature list unless the ambiguity is
the features one. -/
theorem apply_response_features_of_ne (q : ParsedQuery) (a : ClarificationRequest)
    (r : String) (h : a.field_name ≠ "feature_preferences") :
    (apply_response q a r).feature_preferences = q.feature_preferences := by
  unfold apply_response
  split_ifs <;>
    first
      | rfl
      | (split <;> first | rfl | (split <;> rfl))
      | simp_all

/-- `_apply_response` touches none of `missing_fields`, `is_complete`,
`confidence_score`, whatever the ambiguity and response. -/
theorem apply_response_meta (q : ParsedQuery) (a : ClarificationRequest)
    (r : String) :
    (apply_response q a r).missing_fields = q.missing_fields
    ∧ (apply_response q a r).is_complete = q.is_complete
    ∧ (apply_response q a r).confidence_score = q.confidence_score := by
  unfold apply_response
  split_ifs <;>
    first
      | exact ⟨rfl, rfl, rfl⟩
      | (split <;>
          first
            | exact ⟨rfl, rfl, rfl⟩
            | (split <;> exact ⟨rfl, rfl, rfl⟩))

/-- A fold of `clarifyStep` preserves any projection that every
`apply_response` call preserves. -/
theorem foldl_clarifyStep_proj {β : Type} (f : ParsedQuery → β)
    (rs : List (String × String))
    (hf : ∀ q a r, f (apply_response q a r) = f q)
    (ambs : List ClarificationRequest) :
    ∀ acc, f (ambs.foldl (clarifyStep rs) acc).1 = f acc.1 := by
  induction ambs with
  | nil => intro acc; rfl
  | cons a t ih =>
    intro acc
    rw [List.foldl_cons, ih]
    unfold clarifyStep
    cases hL : List.lookup a.field_name rs with
    | none => rfl
    | some r => exact hf acc.1 a r

/-- A fold of `clarifyStep` preserves any projection that `apply_response`
preserves for field names other than `name`, provided no processed ambiguity
carries that name. -/
theorem foldl_clarifyStep_proj_ne {β : Type} (f : ParsedQuery → β)
    (rs : List (String × String)) (name : String)
    (hf : ∀ q a r, a.field_name ≠ name → f (apply_response q a r) = f q)
    (ambs : List ClarificationRequest) :
    ∀ acc, (∀ a ∈ ambs, a.field_name ≠ name) →
      f (ambs.foldl (clarifyStep rs) acc).1 = f acc.1 := by
  induction ambs with
  | nil => intro acc _; rfl
  | cons a t ih =>
    intro acc h
    rw [List.foldl_cons, ih _ (fun b hb => h b (List.mem_cons_of_mem a hb))]
    unfold clarifyStep
    cases hL : List.lookup a.field_name rs with
    | none => rfl
    | some r => exact hf acc.1 a r (h a (List.mem_cons_self a t))

/-- A fold of `clarifyStep` is the identity when the user answered none of
the processed ambiguities. -/
theorem foldl_clarifyStep_of_no_response (rs : List (String × String))
    (ambs : List ClarificationRequest) :
    ∀ acc, (∀ a ∈ ambs, List.lookup a.field_name rs = none) →
      ambs.foldl (clarifyStep rs) acc = acc := by
  induction ambs with
  | nil => intro acc _; rfl
  | cons a t ih =>
    intro acc h
    rw [List.foldl_cons]
    have hstep : clarifyStep rs acc a = acc := by
      unfold clarifyStep
      rw [h a (List.mem_cons_self a t)]
    rw [hstep]
    exact ih acc (fun b hb => h b (List.mem_cons_of_mem a hb))

/-- The parsed query inside a clarification result is the folded query. -/
theorem clarify_query_parsed (q : ParsedQuery) (rs : List (String × String)) :
    (clarify_query q rs).parsed_query =
      ((detect_ambiguities q).foldl (clarifyStep rs) (q, [])).1 := rfl

/-- `validate_query` wraps the query unchanged. -/
theorem validate_query_parsed (q : ParsedQuery) :
    (validate_query q).parsed_query = q := rfl

/-- In a `(· ≤ ·)`-sorted non-empty list, every element is at most the last
element. -/
theorem le_getLastD_of_sorted :
    ∀ (l : List ℚ) (a : ℚ), (a :: l).Sorted (· ≤ ·) →
      ∀ x ∈ a :: l, x ≤ l.getLastD a := by
  intro l
  induction l with
  | nil =>
    intro a _ x hx
    simp only [List.mem_singleton] at hx
    simp [hx, List.getLastD]
  | cons b t ih =>
    intro a hs x hx
    rw [List.getLastD_cons]
    have hs' : (b :: t).Sorted (· ≤ ·) := (List.sorted_cons.mp hs).2
    have hab : a ≤ b := (List.sorted_cons.mp hs).1 b (List.mem_cons_self b t)
    rcases List.mem_cons.mp hx with rfl | hx'
    · exact le_trans hab (ih b hs' b (List.mem_cons_self b t))
    · exact ih b hs' x hx'

/-- The sorted deduplication used by `extract_price_range`. -/
theorem sortedDedup_perm (prices : List ℚ) :
    List.Perm (List.insertionSort (· ≤ ·) prices.dedup) prices.dedup :=
  List.perm_insertionSort _ _

/-- `extract_price_range` on two or more distinct prices: the bounds are the
least and the greatest price mentioned, with confidence 0.85. -/
theorem extract_price_range_multi {prices : List ℚ}
    (h2 : 2 ≤ prices.dedup.length) :
    ∃ lo hi, extract_price_range prices = (some ⟨lo, hi⟩, 0.85)
      ∧ lo ∈ prices ∧ hi ∈ prices
      ∧ ∀ x ∈ prices, lo ≤ x ∧ x ≤ hi := by
  have hne : prices ≠ [] := by
    intro h
    rw [h] at h2
    simp [List.dedup_nil] at h2
  have hE : prices.isEmpty = false := by simp [hne]
  have hperm : List.Perm (List.insertionSort (· ≤ ·) prices.dedup) prices.dedup :=
    List.perm_insertionSort _ _
  have hsort : (List.insertionSort (· ≤ ·) prices.dedup).Sorted (· ≤ ·) :=
    List.sorted_insertionSort _ _
  have hlen : (List.insertionSort (· ≤ ·) prices.dedup).length = prices.dedup.length :=
    hperm.length_eq
  have hmem : ∀ x, x ∈ List.insertionSort (· ≤ ·) prices.dedup ↔ x ∈ prices := by
    intro x
    rw [hperm.mem_iff, List.mem_dedup]
  rcases hs : List.insertionSort (· ≤ ·) prices.dedup with _ | ⟨v, _ | ⟨w, t⟩⟩
  · rw [hs] at hlen
    simp at hlen
    omega
  · rw [hs] at hlen
    simp at hlen
    omega
  · refine ⟨v, (w :: t).getLastD v, ?_, ?_, ?_, ?_⟩
    · unfold extract_price_range
      rw [if_neg (by simp [hE]), hs]
    · exact (hmem v).mp (by rw [hs]; exact List.mem_cons_self v _)
    · have := List.getLastD_mem_cons (w :: t) v
      exact (hmem _).mp (by rw [hs]; exact this)
    · intro x hx
      have hx' : x ∈ v :: w :: t := by rw [← hs]; exact (hmem x).mpr hx
      rw [hs] at hsort
      constructor
      · rcases List.mem_cons.mp hx' with rfl | hx''
        · exact le_refl x
        · exact (List.sorted_cons.mp hsort).1 x hx''
      · exact le_getLastD_of_sorted (w :: t) v hsort x hx'

/-- `extract_price_range` only depends on the multiset of prices found. -/
theorem extract_price_range_perm {prices prices' : List ℚ}
    (hp : prices'.Perm prices) :
    extract_price_range prices' = extract_price_range prices := by
  have hd : List.Perm prices'.dedup prices.dedup := hp.dedup
  have hs : List.insertionSort (· ≤ ·) prices'.dedup
      = List.insertionSort (· ≤ ·) prices.dedup :=
    List.eq_of_perm_of_sorted
      ((List.perm_insertionSort _ _).trans (hd.trans (List.perm_insertionSort _ _).symm))
      (List.sorted_insertionSort _ _) (List.sorted_insertionSort _ _)
  have he : prices'.isEmpty = prices.isEmpty := by
    rcases prices with _ | ⟨p, ps⟩
    · rw [hp.eq_nil]
    · rcases prices' with _ | ⟨p', ps'⟩
      · exact absurd hp.symm.eq_nil (by simp)
      · rfl
  unfold extract_price_range
  rw [hs, he]

/-! ### The claims -/

/-- C1: for a non-`None` price range, `validate_price_range` fails exactly
when a bound is negative, max is below min, or — contrary to the claim's
"warns but still ok" — both bounds are positive and the max/min ratio
exceeds 10; the error list is non-empty exactly when it fails. -/
theorem C1_validate_price_range_fail_iff (pr : PriceRange) :
    ((validate_price_range (some pr)).1 = false ↔
      (pr.min_price < 0 ∨ pr.max_price < 0 ∨ pr.max_price < pr.min_price ∨
        (0 < pr.max_price ∧ 0 < pr.min_price ∧ 10 < pr.max_price / pr.min_price)))
    ∧ ((validate_price_range (some pr)).2 ≠ [] ↔
      (validate_price_range (some pr)).1 = false) := by
  simp only [validate_price_range]
  split_ifs with h1 h2 h3
  · constructor
    · simp only [iff_true]
      tauto
    · simp
  · constructor
    · simp only [iff_true]
      tauto
    · simp
  · constructor
    · simp only [List.isEmpty_cons, iff_true]
      tauto
    · simp
  · constructor
    · simp only [List.isEmpty_nil]
      constructor
      · intro hx
        exact absurd hx (by simp)
      · rintro (h | h | h | ⟨ha, hb, hc⟩)
        · exact absurd (Or.inl h) h1
        · exact absurd (Or.inr h) h1
        · exact absurd h h2
        · exact absurd ⟨ha, hb, hc⟩ h3
    · simp

/-- C1 counterexample: the range (100, 2000) has non-negative bounds with
max above min, yet `validate_price_range` reports failure (ratio 20 > 10). -/
theorem C1_counterexample :
    (validate_price_range (some ⟨100, 2000⟩)).1 = false
    ∧ ¬ ((100 : ℚ) < 0) ∧ ¬ ((2000 : ℚ) < 0) ∧ ¬ ((2000 : ℚ) < 100) := by
  exact ⟨by decide, by norm_num, by norm_num, by norm_num⟩

/-- C3: exactly one price mention `v` yields the range (0.7·v, v) with
price confidence 0.75 — the parsed query carries exactly that range. -/
theorem C3_single_price (v : ℚ) (query : List Char) (hv : 0 ≤ v) :
    ∃ pr, extract_price_range [v] = (some pr, 0.75)
      ∧ pr.max_price = v ∧ pr.min_price = 0.7 * pr.max_price
      ∧ (parse [v] query).price_range = some pr := by
  have hd : ([v] : List ℚ).dedup = [v] := by simp
  have he : extract_price_range [v] = (some ⟨v * 0.7, v⟩, 0.75) := by
    unfold extract_price_range
    rw [if_neg (by simp), hd]
    simp
  refine ⟨⟨v * 0.7, v⟩, he, rfl, mul_comm v 0.7, ?_⟩
  show (extract_price_range [v]).1 = some ⟨v * 0.7, v⟩
  rw [he]

/-- C3 witness: "around 4k" style input with the single match 4000 gives the
range (2800, 4000). -/
theorem C3_witness :
    ∃ pr, extract_price_range [(4000 : ℚ)] = (some pr, 0.75)
      ∧ pr.max_price = 4000 ∧ pr.min_price = 0.7 * pr.max_price
      ∧ (parse [(4000 : ℚ)] "best headphones around 4k for gym".toList).price_range
          = some pr :=
  C3_single_price 4000 "best headphones around 4k for gym".toList (by norm_num)

/-- The three result shapes of `extract_price_range`, with the produced
bounds located inside the input list. -/
theorem extract_price_range_shape (prices : List ℚ) :
    extract_price_range prices = (none, 0)
    ∨ (∃ v, v ∈ prices ∧ extract_price_range prices = (some ⟨v * 0.7, v⟩, 0.75))
    ∨ (∃ lo hi, lo ∈ prices ∧ hi ∈ prices ∧ lo ≤ hi
        ∧ extract_price_range prices = (some ⟨lo, hi⟩, 0.85)) := by
  by_cases hemp : prices.isEmpty = true
  · left
    unfold extract_price_range
    rw [if_pos hemp]
  · have hperm : List.Perm (List.insertionSort (· ≤ ·) prices.dedup) prices.dedup :=
      List.perm_insertionSort _ _
    have hsort : (List.insertionSort (· ≤ ·) prices.dedup).Sorted (· ≤ ·) :=
      List.sorted_insertionSort _ _
    have hmem : ∀ x, x ∈ List.insertionSort (· ≤ ·) prices.dedup ↔ x ∈ prices := by
      intro x
      rw [hperm.mem_iff, List.mem_dedup]
    rcases hs : List.insertionSort (· ≤ ·) prices.dedup with _ | ⟨v, _ | ⟨w, t⟩⟩
    · left
      unfold extract_price_range
      rw [if_neg hemp, hs]
    · right; left
      refine ⟨v, (hmem v).mp (by rw [hs]; exact List.mem_cons_self v _), ?_⟩
      unfold extract_price_range
      rw [if_neg hemp, hs]
    · right; right
      rw [hs] at hsort
      refine ⟨v, (w :: t).getLastD v,
        (hmem v).mp (by rw [hs]; exact List.mem_cons_self v _),
        (hmem _).mp (by rw [hs]; exact List.getLastD_mem_cons (w :: t) v),
        le_getLastD_of_sorted (w :: t) v hsort v (List.mem_cons_self v _), ?_⟩
      unfold extract_price_range
      rw [if_neg hemp, hs]

/-- On non-negative inputs the range produced by `extract_price_range`
satisfies the `PriceRange` invariant. -/
theorem extract_price_range_fst_valid {prices : List ℚ}
    (hnn : ∀ x ∈ prices, (0 : ℚ) ≤ x) {pr : PriceRange}
    (h : (extract_price_range prices).1 = some pr) : pr.Valid := by
  rcases extract_price_range_shape prices with hE | ⟨v, hv, hE⟩ | ⟨lo, hi, hlo, hhi, hlh, hE⟩
  · rw [hE] at h
    simp at h
  · rw [hE] at h
    simp only [Option.some.injEq] at h
    subst h
    have h0 : (0 : ℚ) ≤ v := hnn v hv
    exact ⟨mul_nonneg h0 (by norm_num), h0, mul_le_of_le_one_right h0 (by norm_num)⟩
  · rw [hE] at h
    simp only [Option.some.injEq] at h
    subst h
    exact ⟨hnn lo hlo, hnn hi hhi, hlh⟩

/-- What the price branch of `_apply_response` does: parse, build via
pydantic, and on any failure keep the previous value. -/
theorem apply_response_price_eq (q : ParsedQuery) (a : ClarificationRequest)
    (r : String) (h : a.field_name = "price_range") :
    (apply_response q a r).price_range =
      Option.elim ((parseDecimal (r.toList.filter (fun c => c ≠ ','))).bind
        (fun v => PriceRange.make (v * 0.7) v)) q.price_range some := by
  unfold apply_response
  rw [h, if_neg (by decide), if_pos rfl]
  cases hp : parseDecimal (r.toList.filter (fun c => c ≠ ',')) with
  | none => rfl
  | some v =>
    cases hm : PriceRange.make (v * 0.7) v with
    | none => simp [hm, Option.elim]
    | some pr' => simp [hm, Option.elim]

/-- `_apply_response` keeps the price-range invariant: it either preserves
the field or installs a freshly pydantic-validated range. -/
theorem apply_response_price_valid (q : ParsedQuery) (a : ClarificationRequest)
    (r : String) (hq : ∀ pr, q.price_range = some pr → pr.Valid) :
    ∀ pr, (apply_response q a r).price_range = some pr → pr.Valid := by
  intro pr h'
  by_cases ha : a.field_name = "price_range"
  · rw [apply_response_price_eq q a r ha] at h'
    cases hp : (parseDecimal (r.toList.filter (fun c => c ≠ ','))).bind
        (fun v => PriceRange.make (v * 0.7) v) with
    | none =>
      rw [hp] at h'
      exact hq pr h'
    | some pr' =>
      rw [hp] at h'
      simp only [Option.elim, Option.some.injEq] at h'
      subst h'
      obtain ⟨v, -, hm⟩ := Option.bind_eq_some.mp hp
      exact PriceRange.make_valid hm
  · rw [apply_response_price_of_ne q a r ha] at h'
    exact hq pr h'

/-- The clarification fold keeps the price-range invariant. -/
theorem foldl_clarifyStep_price_valid (rs : List (String × String))
    (ambs : List ClarificationRequest) :
    ∀ acc, (∀ pr, acc.1.price_range = some pr → pr.Valid) →
      ∀ pr, ((ambs.foldl (clarifyStep rs) acc).1.price_range = some pr) → pr.Valid := by
  induction ambs with
  | nil => intro acc hacc; exact hacc
  | cons a t ih =>
    intro acc hacc
    rw [List.foldl_cons]
    refine ih _ ?_
    unfold clarifyStep
    cases hL : List.lookup a.field_name rs with
    | none => exact hacc
    | some resp => exact apply_response_price_valid acc.1 a resp hacc

/-- C7: pydantic construction of `PriceRange` enforces non-negative bounds
with max ≥ min (a violating value such as (5000, 2000) cannot be built), and
every pipeline operation — price extraction, parsing, response application,
the clarification loop — only produces ranges satisfying the invariant. -/
theorem C7_priceRange_invariant :
    (∀ a b pr, PriceRange.make a b = some pr → pr.Valid)
    ∧ PriceRange.make 5000 2000 = none
    ∧ (∀ prices, (∀ x ∈ prices, (0 : ℚ) ≤ x) → ∀ pr c,
        extract_price_range prices = (some pr, c) → pr.Valid)
    ∧ (∀ prices query, (∀ x ∈ prices, (0 : ℚ) ≤ x) → ∀ pr,
        (parse prices query).price_range = some pr → pr.Valid)
    ∧ (∀ q a r, (∀ pr, q.price_range = some pr → pr.Valid) →
        ∀ pr, (apply_response q a r).price_range = some pr → pr.Valid)
    ∧ (∀ q rs, (∀ pr, q.price_range = some pr → pr.Valid) →
        ∀ pr, (clarify_query q rs).parsed_query.price_range = some pr → pr.Valid) := by
  refine ⟨fun a b pr h => PriceRange.make_valid h, by decide, ?_, ?_, ?_, ?_⟩
  · intro prices hnn pr c hE
    exact extract_price_range_fst_valid hnn (by rw [hE])
  · intro prices query hnn pr hE
    exact extract_price_range_fst_valid hnn hE
  · exact apply_response_price_valid
  · intro q rs hq pr
    rw [clarify_query_parsed]
    exact foldl_clarifyStep_price_valid rs (detect_ambiguities q) (q, []) hq pr

/-- C7 witness: concrete invariant-satisfying ranges produced by
construction, extraction and clarification. -/
theorem C7_witness :
    PriceRange.Valid ⟨2800, 4000⟩ ∧ PriceRange.make 5000 2000 = none
    ∧ PriceRange.Valid ⟨52500, 75000⟩ := by
  obtain ⟨-, h2, h3, -, -, h6⟩ := C7_priceRange_invariant
  refine ⟨h3 [4000] (by norm_num) ⟨2800, 4000⟩ 0.75 (by decide), h2, ?_⟩
  exact h6 c2Query [("price_range", "75000")]
    (fun pr h => by simp [c2Query] at h) ⟨52500, 75000⟩ (by decide)

/-- C4: with two or more distinct price mentions, the produced range runs
from the smallest to the largest mentioned value with confidence 0.85,
independently of the order of the mentions. -/
theorem C4_multi_price_bounds (prices : List ℚ) (h2 : 2 ≤ prices.dedup.length)
    (hnn : ∀ x ∈ prices, (0 : ℚ) ≤ x) :
    ∃ pr, extract_price_range prices = (some pr, 0.85)
      ∧ pr.min_price ∈ prices ∧ pr.max_price ∈ prices
      ∧ (∀ x ∈ prices, pr.min_price ≤ x ∧ x ≤ pr.max_price)
      ∧ ∀ prices', List.Perm prices' prices →
          extract_price_range prices' = extract_price_range prices := by
  obtain ⟨lo, hi, hE, hlo, hhi, hb⟩ := extract_price_range_multi h2
  exact ⟨⟨lo, hi⟩, hE, hlo, hhi, hb, fun prices' hp => extract_price_range_perm hp⟩

/-- C4 witness: the mentions 5000, 2000, 10000 yield the range
(2000, 10000) with confidence 0.85. -/
theorem C4_witness :
    (2 ≤ ([5000, 2000, 10000] : List ℚ).dedup.length)
    ∧ ∃ pr, extract_price_range [5000, 2000, 10000] = (some pr, 0.85)
        ∧ pr.min_price ∈ ([5000, 2000, 10000] : List ℚ)
        ∧ pr.max_price ∈ ([5000, 2000, 10000] : List ℚ)
        ∧ (∀ x ∈ ([5000, 2000, 10000] : List ℚ),
            pr.min_price ≤ x ∧ x ≤ pr.max_price)
        ∧ ∀ prices', List.Perm prices' [5000, 2000, 10000] →
            extract_price_range prices' = extract_price_range [5000, 2000, 10000] :=
  ⟨by decide, C4_multi_price_bounds [5000, 2000, 10000] (by decide) (by decide)⟩

/-- C9 counterexample: pydantic accepts a `ParsedQuery` whose `is_complete`
is true while `missing_fields` is non-empty — the model has no validator
linking the two fields, so the claimed equivalence fails for the type at
large. -/
theorem C9_counterexample : c9Query.is_complete = true ∧ c9Query.missing_fields ≠ [] := by
  constructor
  · rfl
  · simp [c9Query]

/-- C9 (amended): for every ParsedQuery produced by the parser,
`is_complete` holds iff `missing_fields` is empty. -/
theorem C9_parse_complete_iff (prices : List ℚ) (query : List Char) :
    (parse prices query).is_complete = true ↔ (parse prices query).missing_fields = [] :=
  List.isEmpty_iff

/-- C10: applying clarification responses never updates `missing_fields`,
`is_complete` or `confidence_score` — the result still carries the values
computed at the original parse. -/
theorem C10_clarification_keeps_parse_metadata (q : ParsedQuery)
    (rs : List (String × String)) :
    (clarify_query q rs).parsed_query.missing_fields = q.missing_fields
    ∧ (clarify_query q rs).parsed_query.is_complete = q.is_complete
    ∧ (clarify_query q rs).parsed_query.confidence_score = q.confidence_score := by
  refine ⟨?_, ?_, ?_⟩
  · rw [clarify_query_parsed]
    exact foldl_clarifyStep_proj (fun x => x.missing_fields) rs
      (fun q a r => (apply_response_meta q a r).1) _ _
  · rw [clarify_query_parsed]
    exact foldl_clarifyStep_proj (fun x => x.is_complete) rs
      (fun q a r => (apply_response_meta q a r).2.1) _ _
  · rw [clarify_query_parsed]
    exact foldl_clarifyStep_proj (fun x => x.confidence_score) rs
      (fun q a r => (apply_response_meta q a r).2.2) _ _

/-- C6: `detect_ambiguities` emits one request per triggered rule (witnessed
through the emitted field names, in rule order), each rule firing
independently, and `is_ambiguous` holds iff at least one of the five rule
conditions does. -/
theorem C6_ambiguity_rules (q : ParsedQuery) :
    ((detect_ambiguities q).map ClarificationRequest.field_name =
      (if q.product_type = ProductTypeEnum.unknown then ["product_type"] else [])
      ++ (if q.price_range = none then ["price_range"] else [])
      ++ (if q.usage_context = [] then ["usage_context"] else [])
      ++ (if q.feature_preferences = [] then ["feature_preferences"] else [])
      ++ (if q.confidence_score < 0.65 then ["general"] else []))
    ∧ (is_ambiguous q = true ↔
        (q.product_type = ProductTypeEnum.unknown ∨ q.price_range = none
          ∨ q.usage_context = [] ∨ q.feature_preferences = []
          ∨ q.confidence_score < 0.65)) := by
  constructor
  · unfold detect_ambiguities
    split_ifs <;>
      simp [productTypeRequest, priceRangeRequest, usageContextRequest,
        featureRequest, generalRequest]
  · unfold is_ambiguous detect_ambiguities
    split_ifs with h1 h2 h3 h4 h5 <;> simp_all

/-- The inner keyword loop of `extract_product_type` is a `find?` over the
(product, keyword) pairs of one table row. -/
theorem findKeywordMatch_eq (n : List Char) (p : ProductTypeEnum)
    (kws : List (List Char)) :
    findKeywordMatch n p kws =
      ((kws.map (fun kw => (p, kw))).find? (fun pk => containsSub n pk.2)).map
        (fun pk =>
          (pk.1, if pk.2 == n || listStartsWith n pk.2 then (0.95 : ℚ) else 0.85)) := by
  induction kws with
  | nil => rfl
  | cons kw rest ih =>
    simp only [findKeywordMatch, List.map_cons]
    by_cases hc : containsSub n kw = true
    · have hfind : List.find? (fun pk : ProductTypeEnum × List Char => containsSub n pk.2)
          ((p, kw) :: rest.map (fun kw => (p, kw))) = some (p, kw) := by
        simp [List.find?, hc]
      rw [if_pos hc, hfind]
      dsimp only [Option.map]
      by_cases hcond : (kw == n || listStartsWith n kw) = true
      · rw [if_pos hcond]
        rw [if_pos hcond]
      · rw [if_neg hcond]
        rw [if_neg hcond]
    · have hfind : List.find? (fun pk : ProductTypeEnum × List Char => containsSub n pk.2)
          ((p, kw) :: rest.map (fun kw => (p, kw)))
          = List.find? (fun pk : ProductTypeEnum × List Char => containsSub n pk.2)
            (rest.map (fun kw => (p, kw))) := by
        rw [Bool.not_eq_true] at hc
        simp [List.find?, hc]
      rw [if_neg hc, hfind]
      exact ih

/-- The double loop of `extract_product_type` is a `find?` over the table
flattened in declared order. -/
theorem findProductMatch_eq (n : List Char)
    (table : List (ProductTypeEnum × List (List Char))) :
    findProductMatch n table =
      ((table.flatMap (fun pk => pk.2.map (fun kw => (pk.1, kw)))).find?
        (fun pk => containsSub n pk.2)).map
        (fun pk =>
          (pk.1, if pk.2 == n || listStartsWith n pk.2 then (0.95 : ℚ) else 0.85)) := by
  induction table with
  | nil => rfl
  | cons hd rest ih =>
    obtain ⟨p, kws⟩ := hd
    simp only [findProductMatch, List.flatMap_cons, List.find?_append]
    rw [findKeywordMatch_eq n p kws]
    cases hf : (kws.map (fun kw => (p, kw))).find? (fun pk => containsSub n pk.2) with
    | none => simp [ih]
    | some pk => simp

/-- C5: `extract_product_type` returns the category of the first keyword, in
table-declared order, occurring in the normalized text, with 0.95 confidence
for an exact or prefix match and 0.85 otherwise, and (unknown, 0.3) when no
keyword occurs — i.e. it coincides with the spec-phrased `productTypeSpec`. -/
theorem C5_product_type_spec (query : List Char) :
    extract_product_type query = productTypeSpec query := by
  unfold extract_product_type
  simp only [productTypeSpec]
  rw [findProductMatch_eq]
  cases hf : (PRODUCT_KEYWORDS.flatMap (fun pk => pk.2.map (fun kw => (pk.1, kw)))).find?
      (fun pk => containsSub (normalize_text query) pk.2) with
  | none => rfl
  | some pk => rfl

/-- Any element of a conditional singleton is that singleton's element. -/
theorem mem_ite_singleton {c : Prop} [Decidable c] {r x : ClarificationRequest}
    (h : x ∈ if c then [r] else []) : x = r := by
  split_ifs at h
  · simpa using h
  · simp at h

/-- When the price range is missing, the detected ambiguities split around
the single price-range request, all other requests carrying other field
names. -/
theorem detect_decomp_price {q : ParsedQuery} (h : q.price_range = none) :
    ∃ A B, detect_ambiguities q = A ++ priceRangeRequest :: B
      ∧ (∀ a ∈ A, a.field_name ≠ "price_range")
      ∧ (∀ a ∈ B, a.field_name ≠ "price_range") := by
  refine ⟨(if q.product_type = ProductTypeEnum.unknown then [productTypeRequest] else []),
    (if q.usage_context = [] then [usageContextRequest] else [])
      ++ (if q.feature_preferences = [] then [featureRequest q.product_type] else [])
      ++ (if q.confidence_score < 0.65 then [generalRequest q.confidence_score] else []),
    ?_, ?_, ?_⟩
  · unfold detect_ambiguities
    rw [if_pos h]
    simp [List.append_assoc]
  · intro a ha
    have := mem_ite_singleton ha
    subst this
    decide
  · intro a ha
    simp only [List.mem_append] at ha
    rcases ha with (ha | ha) | ha
    · have := mem_ite_singleton ha
      subst this
      decide
    · have := mem_ite_singleton ha
      subst this
      intro hx
      simp [featureRequest] at hx
    · have := mem_ite_singleton ha
      subst this
      intro hx
      simp [generalRequest] at hx

/-- Core of the clarifier's price handling: with the price ambiguity
detected and an answer supplied, the resulting price range is the parsed and
pydantic-validated value, or the original `none` on any failure. -/
theorem clarify_price_result {q : ParsedQuery} {rs : List (String × String)}
    {resp : String} (hq : q.price_range = none)
    (hrs : List.lookup "price_range" rs = some resp) :
    (clarify_query q rs).parsed_query.price_range =
      Option.elim ((parseDecimal (resp.toList.filter (fun c => c ≠ ','))).bind
        (fun v => PriceRange.make (v * 0.7) v)) none some := by
  obtain ⟨A, B, hAB, hA, hB⟩ := detect_decomp_price hq
  have hAq : (A.foldl (clarifyStep rs) (q, [])).1.price_range = none := by
    rw [foldl_clarifyStep_proj_ne (fun x => x.price_range) rs "price_range"
      apply_response_price_of_ne A (q, []) hA]
    exact hq
  rw [clarify_query_parsed, hAB, List.foldl_append, List.foldl_cons]
  rw [foldl_clarifyStep_proj_ne (fun x => x.price_range) rs "price_range"
    apply_response_price_of_ne B _ hB]
  show (clarifyStep rs (A.foldl (clarifyStep rs) (q, [])) priceRangeRequest).1.price_range = _
  unfold clarifyStep
  rw [show priceRangeRequest.field_name = "price_range" from rfl, hrs]
  show (apply_response (A.foldl (clarifyStep rs) (q, [])).1 priceRangeRequest
    resp).price_range = _
  rw [apply_response_price_eq _ _ _ rfl, hAq]

/-- When the price branch cannot parse the response, `_apply_response`
returns the query entirely unchanged. -/
theorem apply_response_price_parse_fail (q : ParsedQuery)
    (a : ClarificationRequest) (r : String) (h : a.field_name = "price_range")
    (hp : parseDecimal (r.toList.filter (fun c => c ≠ ',')) = none) :
    apply_response q a r = q := by
  unfold apply_response
  rw [h, if_neg (by decide), if_pos rfl, hp]

/-- C2 counterexample: the response "-100" parses as the number -100, yet
the clarifier leaves the price range unset (pydantic refuses the negative
range and the `ValueError` is swallowed), contradicting the claim for
arbitrary numeric responses. -/
theorem C2_counterexample :
    parseDecimal ("-100".toList.filter (fun c => c ≠ ',')) = some (-100)
    ∧ priceRangeRequest ∈ detect_ambiguities c2Query
    ∧ (clarify_query c2Query [("price_range", "-100")]).parsed_query.price_range
        = none := by
  exact ⟨by decide, by decide, by decide⟩

/-- C2 (amended): with the price ambiguity detected and a response supplied,
a response parsing as a non-negative number v sets the range to
(0.7·v, v); a response parsing as a negative number, or not parsing at all,
leaves the price range at its prior `none`; and an unparsable response on
its own changes nothing and reports no error. -/
theorem C2_price_clarification (q : ParsedQuery) (rs : List (String × String))
    (resp : String) (hq : q.price_range = none)
    (hrs : List.lookup "price_range" rs = some resp) :
    (∀ v, parseDecimal (resp.toList.filter (fun c => c ≠ ',')) = some v → 0 ≤ v →
        (clarify_query q rs).parsed_query.price_range = some ⟨v * 0.7, v⟩)
    ∧ (∀ v, parseDecimal (resp.toList.filter (fun c => c ≠ ',')) = some v → v < 0 →
        (clarify_query q rs).parsed_query.price_range = none)
    ∧ (parseDecimal (resp.toList.filter (fun c => c ≠ ',')) = none →
        (clarify_query q rs).parsed_query.price_range = none)
    ∧ (∀ resp', parseDecimal (resp'.toList.filter (fun c => c ≠ ',')) = none →
        (clarify_query q [("price_range", resp')]).parsed_query = q
        ∧ (clarify_query q [("price_range", resp')]).validation_errors = []) := by
  have hcore := clarify_price_result hq hrs
  refine ⟨?_, ?_, ?_, ?_⟩
  · intro v hv h0
    rw [hcore, hv]
    have hmk : PriceRange.make (v * 0.7) v = some ⟨v * 0.7, v⟩ :=
      PriceRange.make_eq_some.mpr ⟨mul_nonneg h0 (by norm_num), h0,
        mul_le_of_le_one_right h0 (by norm_num), rfl⟩
    simp [hmk, Option.elim]
  · intro v hv hneg
    rw [hcore, hv]
    have hmk : PriceRange.make (v * 0.7) v = none := by
      unfold PriceRange.make
      rw [if_pos (mul_neg_of_neg_of_pos hneg (by norm_num))]
    simp [hmk, Option.elim]
  · intro hv
    rw [hcore, hv]
    rfl
  · intro resp' hresp
    obtain ⟨A, B, hAB, hA, hB⟩ := detect_decomp_price hq
    have hlookA : ∀ a ∈ A, List.lookup a.field_name [("price_range", resp')] = none := by
      intro a ha
      have hne : (a.field_name == "price_range") = false :=
        beq_eq_false_iff_ne.mpr (hA a ha)
      simp [List.lookup, hne]
    have hlookB : ∀ a ∈ B, List.lookup a.field_name [("price_range", resp')] = none := by
      intro a ha
      have hne : (a.field_name == "price_range") = false :=
        beq_eq_false_iff_ne.mpr (hB a ha)
      simp [List.lookup, hne]
    have hstep : clarifyStep [("price_range", resp')] (q, []) priceRangeRequest
        = (q, [priceRangeRequest]) := by
      show (apply_response q priceRangeRequest resp', [] ++ [priceRangeRequest])
        = (q, [priceRangeRequest])
      rw [apply_response_price_parse_fail q priceRangeRequest resp' rfl hresp]
      rfl
    have hfold : (detect_ambiguities q).foldl (clarifyStep [("price_range", resp')]) (q, [])
        = (q, [priceRangeRequest]) := by
      rw [hAB, List.foldl_append,
        foldl_clarifyStep_of_no_response [("price_range", resp')] A (q, []) hlookA,
        List.foldl_cons, hstep]
      exact foldl_clarifyStep_of_no_response [("price_range", resp')] B
        (q, [priceRangeRequest]) hlookB
    constructor
    · rw [clarify_query_parsed, hfold]
    · have h1 : (clarify_query q [("price_range", resp')]).validation_errors
          = (validate_query ((detect_ambiguities q).foldl
              (clarifyStep [("price_range", resp')]) (q, [])).1).validation_errors := rfl
      rw [h1, hfold]
      show (if (validate_price_range q.price_range).1 then []
        else (validate_price_range q.price_range).2) = []
      rw [hq]
      rfl

/-- C2 witness: the spec's scenario — answering "75000" on a query with a
missing price range yields the range (52500, 75000). -/
theorem C2_witness :
    c2Query.price_range = none
    ∧ List.lookup "price_range" [("price_range", "75000")] = some "75000"
    ∧ (clarify_query c2Query [("price_range", "75000")]).parsed_query.price_range
        = some ⟨52500, 75000⟩ := by
  refine ⟨rfl, rfl, ?_⟩
  have h := (C2_price_clarification c2Query [("price_range", "75000")] "75000"
    rfl rfl).1 75000 (by decide) (by norm_num)
  rw [h]
  have : (75000 : ℚ) * 0.7 = 52500 := by norm_num
  rw [this]

/-- C8: a response keyed on a field not among the currently detected
ambiguities is never applied — that field keeps its value for each of the
four clarifiable fields — and normalizing an unambiguous parse together
with stray responses equals running the validator directly. -/
theorem C8_unanswered_fields_frame :
    (∀ (q : ParsedQuery) (rs : List (String × String)),
      ("product_type" ∉ (detect_ambiguities q).map ClarificationRequest.field_name →
        (clarify_query q rs).parsed_query.product_type = q.product_type)
      ∧ ("price_range" ∉ (detect_ambiguities q).map ClarificationRequest.field_name →
        (clarify_query q rs).parsed_query.price_range = q.price_range)
      ∧ ("usage_context" ∉ (detect_ambiguities q).map ClarificationRequest.field_name →
        (clarify_query q rs).parsed_query.usage_context = q.usage_context)
      ∧ ("feature_preferences" ∉ (detect_ambiguities q).map ClarificationRequest.field_name →
        (clarify_query q rs).parsed_query.feature_preferences = q.feature_preferences))
    ∧ (∀ (prices : List ℚ) (query : List Char) (rs : List (String × String)),
        is_ambiguous (parse prices query) = false →
        normalize prices query rs = validate_query (parse prices query)) := by
  constructor
  · intro q rs
    have hmem : ∀ (s : String),
        s ∉ (detect_ambiguities q).map ClarificationRequest.field_name →
        ∀ a ∈ detect_ambiguities q, a.field_name ≠ s := by
      intro s hs a ha h
      exact hs (List.mem_map.mpr ⟨a, ha, h⟩)
    refine ⟨fun h => ?_, fun h => ?_, fun h => ?_, fun h => ?_⟩ <;>
      rw [clarify_query_parsed]
    · exact foldl_clarifyStep_proj_ne (fun x => x.product_type) rs "product_type"
        apply_response_product_of_ne _ _ (hmem _ h)
    · exact foldl_clarifyStep_proj_ne (fun x => x.price_range) rs "price_range"
        apply_response_price_of_ne _ _ (hmem _ h)
    · exact foldl_clarifyStep_proj_ne (fun x => x.usage_context) rs "usage_context"
        apply_response_usage_of_ne _ _ (hmem _ h)
    · exact foldl_clarifyStep_proj_ne (fun x => x.feature_preferences) rs
        "feature_preferences" apply_response_features_of_ne _ _ (hmem _ h)
  · intro prices query rs hamb
    have hdet : detect_ambiguities (parse prices query) = [] := by
      unfold is_ambiguous at hamb
      simp only [decide_eq_false_iff_not, not_lt, Nat.le_zero] at hamb
      exact List.length_eq_zero.mp hamb
    have hclar : clarify_query (parse prices query) rs
        = validate_query (parse prices query) := by
      unfold clarify_query
      rw [hdet]
      rfl
    simp only [normalize]
    rw [hamb, Bool.or_false]
    cases hrs : rs.isEmpty with
    | true => simp [hrs]
    | false => simp [hrs, hclar]

/-- C8 witness: a complete, unambiguous query with a stray price response —
nothing is applied and the pipeline result equals direct validation. -/
theorem C8_witness :
    ("price_range" ∉ (detect_ambiguities (parse [5000] c8Text)).map
        ClarificationRequest.field_name)
    ∧ (clarify_query (parse [5000] c8Text)
        [("price_range", "9999")]).parsed_query.price_range
        = (parse [5000] c8Text).price_range
    ∧ is_ambiguous (parse [5000] c8Text) = false
    ∧ normalize [5000] c8Text [("price_range", "9999")]
        = validate_query (parse [5000] c8Text) := by
  refine ⟨by decide, ?_, by decide, ?_⟩
  · exact (C8_unanswered_fields_frame.1 (parse [5000] c8Text)
      [("price_range", "9999")]).2.1 (by decide)
  · exact C8_unanswered_fields_frame.2 [5000] c8Text
      [("price_range", "9999")] (by decide)

end PQN
